import Mathlib

/-!
Verification of the connection/process lifecycle and protocol layer of the
xapiand front-end daemon, shallowly embedded from the Python sources:
src/xapiand/contrib/haystack_backend.py (consistent_hash),
src/xapiand/core.py (Database retry family, TcpPool, DatabasesPool) and
src/xapiand/server/worker2.py (encode_length, decode_length, AliveCommand,
the threaded command wrapper).
Bytes are modelled as natural numbers below 256, byte strings as lists.
-/

/-! ## Wire length framing (worker2.py, encode_length / decode_length) -/

/-- Continuation-byte loop of encode_length: `while True: b = decoded & 0x7f;
decoded >>= 7; if decoded: emit chr(b) else: emit chr(b | 0x80); break`.
Since here b < 128, `b ||| 0x80 = b + 128`. The first argument is fuel
(structural recursion, so the kernel can evaluate): the entry point passes
fuel = decoded, and the recursive branch is taken only when
decoded ≥ 128 > decoded / 128, so the fuel is never exhausted. -/
def encode_length_loop : Nat → Nat → List Nat
  | 0, decoded => [decoded % 128 + 128]
  | fuel + 1, decoded =>
    if decoded / 128 = 0 then [decoded % 128 + 128]
    else decoded % 128 :: encode_length_loop fuel (decoded / 128)

/-- encode_length from worker2.py: values below 255 are one raw byte, larger
values are 0xFF followed by base-128 groups of (value - 255), least
significant group first, high bit set on the terminal group. -/
def encode_length (decoded : Nat) : List Nat :=
  if decoded < 255 then [decoded]
  else 255 :: encode_length_loop (decoded - 255) (decoded - 255)

/-- Continuation-byte loop of decode_length: `for ch in encoded:
decoded |= (ch & 0x7f) << shift; shift += 7; size += 1; if ch & 0x80: break`.
Returns the accumulated value and size. -/
def decode_length_loop : List Nat → Nat → Nat → Nat → Nat × Nat
  | [], decoded, _, size => (decoded, size)
  | ch :: rest, decoded, shift, size =>
    let decoded2 := decoded ||| ((ch % 128) <<< shift)
    if ch &&& 128 ≠ 0 then (decoded2, size + 1)
    else decode_length_loop rest decoded2 (shift + 7) (size + 1)

/-- decode_length from worker2.py. `none` models the IndexError on an empty
input (`encoded[0]`). Note that in the branch where the first byte is not
0xFF the source sets `decoded = 255`, discarding the byte it just read. -/
def decode_length (encoded : List Nat) : Option (Nat × Nat) :=
  match encoded with
  | [] => none
  | b :: rest =>
    if b = 255 then
      let ds := decode_length_loop rest 0 0 1
      some (ds.1 + 255, ds.2)
    else
      some (255, 1)

/-! ## Sharding (haystack_backend.py, consistent_hash)

The source computes the jump in IEEE-754 double precision:
`j = float(b + 1) * (float(1 << 31) / float((key >> 33) + 1))`.
Every double arising in this recurrence lies in [1, 2^62], so it is an
integer multiple of 2^(-52); we represent a double value v exactly by the
natural number v * 2^52 and model each float operation by correct
round-to-nearest-even to a 53-bit significand. -/

/-- Floor of the base-2 logarithm, by explicit fuel (structural recursion so
that the kernel can evaluate it). 128 units of fuel are enough for every
argument below 2^128; all arguments in this development are below 2^64. -/
def log2_fuel : Nat → Nat → Nat
  | 0, _ => 0
  | f + 1, n => if n < 2 then 0 else log2_fuel f (n / 2) + 1

/-- Round the rational a / b to the nearest IEEE-754 double (53-bit
significand, ties to even), returning the result scaled by 2^52.
Faithful to double rounding whenever b ≤ a (quotient at least 1) with
a / b ≤ 2^62, which holds for every call in the jump hash: exponent
e = floor(log2 (a/b)), scaled significand in [2^52, 2^53). Neither
overflow nor subnormals can occur in that range. -/
def roundScaled (a b : Nat) : Nat :=
  let e := log2_fuel 128 (a / b)
  let D := b * 2 ^ e
  let n := a * 2 ^ 52 / D
  let r := a * 2 ^ 52 % D
  let m :=
    if 2 * r < D then n
    else if D < 2 * r then n + 1
    else if n % 2 = 0 then n else n + 1
  m * 2 ^ e

/-- The while-loop of consistent_hash: `while j < num_buckets: b = int(j);
key = (key * 2862933555777941757 + 1) & 0xffffffffffffffff;
j = float(b + 1) * (float(1 << 31) / float((key >> 33) + 1))`.
J carries j scaled by 2^52 (so `int(j) = J / 2^52`, and the comparison
`j < num_buckets` is exact as `J < nb * 2^52`). The fuel only bounds the
recursion: each iteration either exits or strictly increases `int(j)`
(the multiplier is at least 1), and the loop runs only while
`int(j) < num_buckets`, so `num_buckets + 2` units are never exhausted. -/
def jumpLoop : Nat → Int → Int → Int → Nat → Int
  | 0, _, _, b, _ => b
  | fuel + 1, key, nb, b, J =>
    if (J : Int) < nb * 2 ^ 52 then
      let key2 : Int := (key * 2862933555777941757 + 1) % 2 ^ 64
      let x : Nat := key2.toNat >>> 33 + 1
      let q : Nat := roundScaled (2 ^ 31) x
      let J2 : Nat := roundScaled ((J / 2 ^ 52 + 1) * q) (2 ^ 52)
      jumpLoop fuel key2 nb ((J / 2 ^ 52 : Nat) : Int) J2
    else b

/-- consistent_hash from haystack_backend.py, for integer keys (the
isinstance branch hashing non-integer keys through md5 is out of scope).
`num_buckets == 1` short-circuits to 0, negative counts are normalized to
1, and the final result is masked with `& 0xffffffff` (Python's `%` on
ints and Lean's `%` on Int agree: both yield a nonnegative remainder). -/
def consistent_hash (key : Int) (num_buckets : Int) : Int :=
  if num_buckets = 1 then 0
  else
    jumpLoop ((if num_buckets < 0 then 1 else num_buckets).toNat + 2) key
      (if num_buckets < 0 then 1 else num_buckets) (-1) 0 % 2 ^ 32

/-! ## Database retry-and-reopen family (core.py, Database)

Each operation wraps one engine call (`database.replace_document`,
`database.delete_document`, `database.commit`, `database.get_uuid`,
`database.get_doccount`, `database.get_document`) in
`try ... except (xapian.NetworkError, xapian.DatabaseError):
  if _t > 3: raise XapianError(exc)
  elif _t > 1: gevent.sleep(0.1)
  self.reopen(_t > 1)
  return self.op(..., _t=_t + 1)`.
The engine is abstracted as a function from the call index (number of
calls already made on that engine method) to the outcome of that call.
Each operation returns the result together with the ordered trace of
observable events: engine calls, backoff sleeps, and reopens with the
force flag that was passed to Database.reopen. -/

/-- Outcome of one underlying xapian engine call: success, a transient
error (xapian.NetworkError or xapian.DatabaseError), or
xapian.InvalidArgumentError. -/
inductive EngineBeh
  | ok
  | transient
  | invalid
deriving DecidableEq, Repr

/-- Errors escaping a Database operation: the fatal XapianError raised
after retry exhaustion; an uncaught xapian.InvalidArgumentError; and
Python's UnboundLocalError from `return docid` when docid was never
assigned. -/
inductive XErr
  | xapianError
  | invalidArg
  | unboundLocal
deriving DecidableEq, Repr

/-- Observable events of a Database operation: an engine call, the
`gevent.sleep(0.1)` backoff, and `self.reopen(force)`. -/
inductive Ev
  | call
  | sleep
  | reopen (forced : Bool)
deriving DecidableEq, BEq, Repr

instance : DecidableEq (Except XErr Unit)
  | .ok _, .ok _ => isTrue rfl
  | .ok _, .error _ => isFalse (by simp)
  | .error _, .ok _ => isFalse (by simp)
  | .error e, .error f =>
    if h : e = f then isTrue (by rw [h]) else isFalse (by simp [h])

/-- Database.commit, on the abstract engine. Arguments: fuel, call index
k, and the source's retry counter `_t`. The entry point passes
fuel = 5 - _t; the recursive branch is taken only when _t ≤ 3, i.e. when
fuel = 5 - _t ≥ 2, so a fuel of 0 means _t > 3, and the fuel-0 body
(raise on a transient error without retrying) is exactly the source's
behaviour there. commit catches only the two transient exception types;
anything else would propagate. -/
def commitAux (eng : Nat → EngineBeh) : Nat → Nat → Nat → Except XErr Unit × List Ev
  | 0, k, _ =>
    (match eng k with
     | .ok => (Except.ok (), [Ev.call])
     | .invalid => (Except.error XErr.invalidArg, [Ev.call])
     | .transient => (Except.error XErr.xapianError, [Ev.call]))
  | fuel + 1, k, t =>
    match eng k with
    | .ok => (Except.ok (), [Ev.call])
    | .invalid => (Except.error XErr.invalidArg, [Ev.call])
    | .transient =>
      if 3 < t then (Except.error XErr.xapianError, [Ev.call])
      else
        let pre := if 1 < t then [Ev.call, Ev.sleep] else [Ev.call]
        let rest := commitAux eng fuel (k + 1) (t + 1)
        (rest.1, pre ++ [Ev.reopen (decide (1 < t))] ++ rest.2)

/-- Database.commit from core.py (retry skeleton over the abstract
engine's commit method). -/
def Database.commit (eng : Nat → EngineBeh) (k t : Nat) : Except XErr Unit × List Ev :=
  commitAux eng (5 - t) k t

/-- Database.replace from core.py. Stands apart from the others:
xapian.InvalidArgumentError is caught and merely logged, after which the
function falls through to `if commit: self.commit()` and `return docid`
with docid never assigned, raising UnboundLocalError. cEng is the engine
stream consumed by self.commit() when the commit flag is set. Fuel
discipline as in commitAux. -/
def replaceAux (eng cEng : Nat → EngineBeh) (commit : Bool) :
    Nat → Nat → Nat → Except XErr Unit × List Ev
  | 0, k, _ =>
    (match eng k with
     | .ok =>
       if commit then
         match Database.commit cEng 0 0 with
         | (Except.ok _, evs) => (Except.ok (), Ev.call :: evs)
         | (Except.error e, evs) => (Except.error e, Ev.call :: evs)
       else (Except.ok (), [Ev.call])
     | .invalid =>
       if commit then
         match Database.commit cEng 0 0 with
         | (Except.ok _, evs) => (Except.error XErr.unboundLocal, Ev.call :: evs)
         | (Except.error e, evs) => (Except.error e, Ev.call :: evs)
       else (Except.error XErr.unboundLocal, [Ev.call])
     | .transient => (Except.error XErr.xapianError, [Ev.call]))
  | fuel + 1, k, t =>
    match eng k with
    | .ok =>
      if commit then
        match Database.commit cEng 0 0 with
        | (Except.ok _, evs) => (Except.ok (), Ev.call :: evs)
        | (Except.error e, evs) => (Except.error e, Ev.call :: evs)
      else (Except.ok (), [Ev.call])
    | .invalid =>
      if commit then
        match Database.commit cEng 0 0 with
        | (Except.ok _, evs) => (Except.error XErr.unboundLocal, Ev.call :: evs)
        | (Except.error e, evs) => (Except.error e, Ev.call :: evs)
      else (Except.error XErr.unboundLocal, [Ev.call])
    | .transient =>
      if 3 < t then (Except.error XErr.xapianError, [Ev.call])
      else
        let pre := if 1 < t then [Ev.call, Ev.sleep] else [Ev.call]
        let rest := replaceAux eng cEng commit fuel (k + 1) (t + 1)
        (rest.1, pre ++ [Ev.reopen (decide (1 < t))] ++ rest.2)

/-- Database.replace from core.py. -/
def Database.replace (eng cEng : Nat → EngineBeh) (commit : Bool) (k t : Nat) :
    Except XErr Unit × List Ev :=
  replaceAux eng cEng commit (5 - t) k t

/-- Database.drop from core.py (`database.delete_document`, then
`if commit: self.commit()`). Only the two transient exception types are
caught; InvalidArgumentError would propagate. Fuel discipline as in
commitAux. -/
def dropAux (eng cEng : Nat → EngineBeh) (commit : Bool) :
    Nat → Nat → Nat → Except XErr Unit × List Ev
  | 0, k, _ =>
    (match eng k with
     | .ok =>
       if commit then
         match Database.commit cEng 0 0 with
         | (Except.ok _, evs) => (Except.ok (), Ev.call :: evs)
         | (Except.error e, evs) => (Except.error e, Ev.call :: evs)
       else (Except.ok (), [Ev.call])
     | .invalid => (Except.error XErr.invalidArg, [Ev.call])
     | .transient => (Except.error XErr.xapianError, [Ev.call]))
  | fuel + 1, k, t =>
    match eng k with
    | .ok =>
      if commit then
        match Database.commit cEng 0 0 with
        | (Except.ok _, evs) => (Except.ok (), Ev.call :: evs)
        | (Except.error e, evs) => (Except.error e, Ev.call :: evs)
      else (Except.ok (), [Ev.call])
    | .invalid => (Except.error XErr.invalidArg, [Ev.call])
    | .transient =>
      if 3 < t then (Except.error XErr.xapianError, [Ev.call])
      else
        let pre := if 1 < t then [Ev.call, Ev.sleep] else [Ev.call]
        let rest := dropAux eng cEng commit fuel (k + 1) (t + 1)
        (rest.1, pre ++ [Ev.reopen (decide (1 < t))] ++ rest.2)

/-- Database.drop from core.py. -/
def Database.drop (eng cEng : Nat → EngineBeh) (commit : Bool) (k t : Nat) :
    Except XErr Unit × List Ev :=
  dropAux eng cEng commit (5 - t) k t

/-- Shared retry skeleton of Database.get_uuid, Database.get_doccount and
Database.get_document: one engine read with no commit stage, identical
except-clauses. Fuel discipline as in commitAux. -/
def getterAux (eng : Nat → EngineBeh) : Nat → Nat → Nat → Except XErr Unit × List Ev
  | 0, k, _ =>
    (match eng k with
     | .ok => (Except.ok (), [Ev.call])
     | .invalid => (Except.error XErr.invalidArg, [Ev.call])
     | .transient => (Except.error XErr.xapianError, [Ev.call]))
  | fuel + 1, k, t =>
    match eng k with
    | .ok => (Except.ok (), [Ev.call])
    | .invalid => (Except.error XErr.invalidArg, [Ev.call])
    | .transient =>
      if 3 < t then (Except.error XErr.xapianError, [Ev.call])
      else
        let pre := if 1 < t then [Ev.call, Ev.sleep] else [Ev.call]
        let rest := getterAux eng fuel (k + 1) (t + 1)
        (rest.1, pre ++ [Ev.reopen (decide (1 < t))] ++ rest.2)

/-- Database.get_uuid from core.py. -/
def Database.get_uuid (eng : Nat → EngineBeh) (k t : Nat) : Except XErr Unit × List Ev :=
  getterAux eng (5 - t) k t

/-- Database.get_doccount from core.py. -/
def Database.get_doccount (eng : Nat → EngineBeh) (k t : Nat) : Except XErr Unit × List Ev :=
  getterAux eng (5 - t) k t

/-- Database.get_document from core.py (the docid argument is threaded
through unchanged by the source and does not influence the retry
skeleton; the engine stream abstracts the call's outcome). -/
def Database.get_document (eng : Nat → EngineBeh) (docid : Nat) (k t : Nat) :
    Except XErr Unit × List Ev :=
  getterAux eng (5 - t) k t

/-! ## Port allocator (core.py, TcpPool)

`unused` is a collections.deque: `release` appends on the right
(`unused.append(port)`), `acquire` pops from the right (`unused.pop()`).
We model the deque as a list whose head is the left (oldest) end, and
`used` (a Python set) as a Finset. The lock, timestamps and the dict
part of the pool are irrelevant to the claims and omitted. -/

/-- Pop from the right end of a deque (Python `deque.pop()`), returning
the popped element and the remaining deque, or none when empty
(IndexError). -/
def popRight (l : List Nat) : Option (Nat × List Nat) :=
  match l.reverse with
  | [] => none
  | x :: xs => some (x, xs.reverse)

/-- MIN_TCP_SERVER_PORTS from core.py. -/
def MIN_TCP_SERVER_PORTS : Nat := 100

/-- State of TcpPool: the free deque, the held set, and the monotone
minting counter (initialized to 8900 in the source). -/
structure TcpPool where
  unused : List Nat
  used : Finset Nat
  port : Nat
deriving DecidableEq

/-- The initial TcpPool (`tcpservers = TcpPool()`). -/
def TcpPool.init : TcpPool := { unused := [], used := ∅, port := 8900 }

/-- TcpPool.acquire from core.py: if fewer than MIN_TCP_SERVER_PORTS
ports are held, an IndexError is raised deliberately, and likewise
`unused.pop()` raises on an empty deque; the handler then mints
`self.port` and increments the counter. Otherwise the right end of the
free deque (the most recently released port) is popped. The result is
added to the held set either way. -/
def TcpPool.acquire (s : TcpPool) : Nat × TcpPool :=
  let minted : Nat × TcpPool :=
    (s.port, { s with used := insert s.port s.used, port := s.port + 1 })
  if s.used.card < MIN_TCP_SERVER_PORTS then minted
  else
    match popRight s.unused with
    | none => minted
    | some (p, rest) => (p, { s with unused := rest, used := insert p s.used })

/-- TcpPool.release from core.py: `self.used.discard(port);
self.unused.append(port)` — the discard is a no-op when the port is not
held, and the append is unconditional. -/
def TcpPool.release (s : TcpPool) (p : Nat) : TcpPool :=
  { s with used := s.used.erase p, unused := s.unused ++ [p] }

/-- One client-visible TcpPool call. -/
inductive PortOp
  | acq
  | rel (p : Nat)
deriving DecidableEq

/-- Apply one TcpPool call (the value returned by acquire is dropped). -/
def TcpPool.step (s : TcpPool) : PortOp → TcpPool
  | .acq => (s.acquire).2
  | .rel p => s.release p

/-- Run a sequence of TcpPool calls. -/
def TcpPool.run (s : TcpPool) (ops : List PortOp) : TcpPool :=
  ops.foldl TcpPool.step s

/-- A call sequence is disciplined when every release passes a port that
is currently held. -/
def TcpPool.validOps : TcpPool → List PortOp → Bool
  | _, [] => true
  | s, .acq :: ops => TcpPool.validOps (s.step .acq) ops
  | s, .rel p :: ops => p ∈ s.used && TcpPool.validOps (s.step (.rel p)) ops

/-- Acquire n times in a row, dropping the returned ports. -/
def TcpPool.acquireN : Nat → TcpPool → TcpPool
  | 0, s => s
  | n + 1, s => TcpPool.acquireN n (s.acquire).2

/-- The PortLease invariant, strengthened with the freshness of the
minting counter: the free deque holds no duplicates, no port is both
free and held, and every known port is below the counter. -/
def TcpPoolInv (s : TcpPool) : Prop :=
  s.unused.Nodup ∧
  (∀ p ∈ s.unused, p ∉ s.used) ∧
  (∀ p ∈ s.unused, p < s.port) ∧
  (∀ p ∈ s.used, p < s.port)

/-! ## Connection pool idle queue (core.py, DatabasesPool.database)

One pool key's DatabasesPoolQueue: `unused` is a deque of Database
handles (checkout pops from the right, release appends on the right),
`used` a set. A fresh handle (`Database(endpoints, ...)`) is minted when
the deque is empty; handles are identified by mint order. `closed`
records every handle on which `database.close()` was called by the
release path; the release path consults the handle's closed flag
(`database.database._closed`), which within this op universe is set
exactly by that close call. -/

/-- State of one DatabasesPoolQueue together with the handle minter. -/
structure DbPoolQueue where
  unused : List Nat
  used : Finset Nat
  next : Nat
  closed : List Nat
deriving DecidableEq

/-- An empty DatabasesPoolQueue. -/
def DbPoolQueue.init : DbPoolQueue := { unused := [], used := ∅, next := 0, closed := [] }

/-- Checkout (entry of the DatabasesPool.database context manager):
`database = pool_queue.unused.pop(); pool_queue.used.add(database)`, and
on IndexError a new Database is built and added to the used set. -/
def DbPoolQueue.checkout (s : DbPoolQueue) : Nat × DbPoolQueue :=
  match popRight s.unused with
  | some (d, rest) => (d, { s with unused := rest, used := insert d s.used })
  | none => (s.next, { s with used := insert s.next s.used, next := s.next + 1 })

/-- Release (finally block of DatabasesPool.database):
`pool_queue.used.discard(database); if len(pool_queue.unused) < 10:
if not database.database._closed: pool_queue.unused.append(database)
else: database.close()`. -/
def DbPoolQueue.release (s : DbPoolQueue) (d : Nat) : DbPoolQueue :=
  let s1 := { s with used := s.used.erase d }
  if s1.unused.length < 10 then
    if d ∈ s1.closed then s1 else { s1 with unused := s1.unused ++ [d] }
  else { s1 with closed := s1.closed ++ [d] }

/-- One client-visible pool-queue call. -/
inductive DbOp
  | co
  | rel (d : Nat)
deriving DecidableEq

/-- Apply one pool-queue call (the checked-out handle is dropped). -/
def DbPoolQueue.step (s : DbPoolQueue) : DbOp → DbPoolQueue
  | .co => (s.checkout).2
  | .rel d => s.release d

/-- Run a sequence of pool-queue calls. -/
def DbPoolQueue.run (s : DbPoolQueue) (ops : List DbOp) : DbPoolQueue :=
  ops.foldl DbPoolQueue.step s

/-! ## Cooperative cancellation (worker2.py, AliveCommand and the
threaded command wrapper) -/

/-- The DeadException signal. -/
inductive DeadEx
  | dead
deriving DecidableEq

/-- AliveCommand creation: `parent.cmd_id = getattr(parent, 'cmd_id', 0) + 1;
self.cmd_id = parent.cmd_id`. Given the connection's current counter it
returns the advanced counter and the value captured by the command
(they coincide at creation). -/
def AliveCommand.create (parentCmdId : Nat) : Nat × Nat :=
  (parentCmdId + 1, parentCmdId + 1)

/-- The staleness check, AliveCommand.__nonzero__: returns False (the
command is alive and continues) when the captured id still equals the
connection's counter, and raises DeadException otherwise. -/
def AliveCommand.check (captured parentNow : Nat) : Except DeadEx Bool :=
  if captured = parentNow then Except.ok false else Except.error DeadEx.dead

/-- How the body of a threaded command terminates: a result value, one of
the caught I/O errors (IOError, RuntimeError, socket.error), or
DeadException escaping from a staleness check. -/
inductive FuncOutcome
  | ok
  | ioError
  | dead
deriving DecidableEq

/-- What the wrapper reports for the command. -/
inductive CmdReport
  | executed
  | errorReport
  | cancelled
deriving DecidableEq

/-- The threaded command wrapper from the `command` decorator:
`try: command.executed(func(...)) except (IOError, RuntimeError,
socket.error): command.error(e) except DeadException:
command.cancelled()`. -/
def commandReport : FuncOutcome → CmdReport
  | .ok => CmdReport.executed
  | .ioError => CmdReport.errorReport
  | .dead => CmdReport.cancelled

/-- A threaded command whose handler runs the staleness check before
producing its result: DeadException from the check propagates to the
wrapper, otherwise the body's own outcome is reported. -/
def runThreadedCommand (captured parentNow : Nat) (body : FuncOutcome) : CmdReport :=
  match AliveCommand.check captured parentNow with
  | Except.error _ => commandReport FuncOutcome.dead
  | Except.ok _ => commandReport body

/-! ## Helper lemmas -/

theorem log2_fuel_le (f : Nat) : ∀ n : Nat, 0 < n → 2 ^ log2_fuel f n ≤ n := by
  induction f with
  | zero => intro n hn; simpa [log2_fuel] using hn
  | succ f ih =>
    intro n hn
    rw [log2_fuel]
    by_cases h2 : n < 2
    · simpa [h2] using hn
    · simp only [h2, if_false]
      have hpos : 0 < n / 2 := Nat.div_pos (by omega) (by norm_num)
      have h := ih (n / 2) hpos
      calc 2 ^ (log2_fuel f (n / 2) + 1) = 2 ^ log2_fuel f (n / 2) * 2 := by ring
        _ ≤ n / 2 * 2 := by omega
        _ ≤ n := Nat.div_mul_le_self n 2

theorem roundScaled_ge (a b : Nat) (hb : 0 < b) (hab : b ≤ a) :
    2 ^ 52 ≤ roundScaled a b := by
  simp only [roundScaled]
  set e := log2_fuel 128 (a / b) with he
  have h1 : 0 < a / b := Nat.div_pos hab hb
  have h2 : 2 ^ e ≤ a / b := log2_fuel_le 128 (a / b) h1
  have hD : b * 2 ^ e ≤ a := by
    have h3 := (Nat.le_div_iff_mul_le hb).mp h2
    calc b * 2 ^ e = 2 ^ e * b := by ring
      _ ≤ a := h3
  have hDpos : 0 < b * 2 ^ e := Nat.mul_pos hb (Nat.two_pow_pos e)
  have hn : 2 ^ 52 ≤ a * 2 ^ 52 / (b * 2 ^ e) := by
    rw [Nat.le_div_iff_mul_le hDpos]
    calc 2 ^ 52 * (b * 2 ^ e) = b * 2 ^ e * 2 ^ 52 := by ring
      _ ≤ a * 2 ^ 52 := Nat.mul_le_mul_right _ hD
  have hgen : ∀ m : Nat, 2 ^ 52 ≤ m → 2 ^ 52 ≤ m * 2 ^ e := fun m hm =>
    le_trans hm (Nat.le_mul_of_pos_right m (Nat.two_pow_pos e))
  split_ifs with hc1 hc2 hc3
  · exact hgen _ hn
  · exact hgen _ (le_trans hn (Nat.le_succ _))
  · exact hgen _ hn
  · exact hgen _ (le_trans hn (Nat.le_succ _))

theorem jumpLoop_succ (fuel : Nat) (key nb b : Int) (J : Nat) :
    jumpLoop (fuel + 1) key nb b J =
    if (J : Int) < nb * 2 ^ 52 then
      jumpLoop fuel ((key * 2862933555777941757 + 1) % 2 ^ 64) nb ((J / 2 ^ 52 : Nat) : Int)
        (roundScaled ((J / 2 ^ 52 + 1) *
          roundScaled (2 ^ 31) (((key * 2862933555777941757 + 1) % 2 ^ 64).toNat >>> 33 + 1))
          (2 ^ 52))
    else b := rfl

theorem consistent_hash_one (k : Int) : consistent_hash k 1 = 0 := by
  simp [consistent_hash]

theorem consistent_hash_of_neg (k n : Int) (hn : n < 0) : consistent_hash k n = 0 := by
  have h1 : n ≠ 1 := by omega
  simp only [consistent_hash, if_neg h1, if_pos hn]
  show jumpLoop (2 + 1) k 1 (-1) 0 % 2 ^ 32 = 0
  rw [jumpLoop_succ, if_pos (by norm_num : ((0 : Nat) : Int) < 1 * 2 ^ 52)]
  simp only [Nat.zero_div, Nat.zero_add, one_mul, Nat.cast_zero]
  obtain ⟨key2, hkey2⟩ : ∃ key2 : Int, (k * 2862933555777941757 + 1) % 2 ^ 64 = key2 :=
    ⟨_, rfl⟩
  rw [hkey2]
  have hk0 : 0 ≤ key2 := hkey2 ▸ Int.emod_nonneg _ (by norm_num)
  have hk1 : key2 < 2 ^ 64 := hkey2 ▸ Int.emod_lt_of_pos _ (by norm_num)
  clear hkey2
  have hxle : key2.toNat >>> 33 + 1 ≤ 2 ^ 31 := by
    rw [Nat.shiftRight_eq_div_pow]
    omega
  have hq : 2 ^ 52 ≤ roundScaled (2 ^ 31) (key2.toNat >>> 33 + 1) :=
    roundScaled_ge _ _ (Nat.succ_pos _) hxle
  have hJ : 2 ^ 52 ≤ roundScaled (roundScaled (2 ^ 31) (key2.toNat >>> 33 + 1)) (2 ^ 52) :=
    roundScaled_ge _ _ (by norm_num) hq
  show jumpLoop (1 + 1) key2 1 0
      (roundScaled (roundScaled (2 ^ 31) (key2.toNat >>> 33 + 1)) (2 ^ 52)) % 2 ^ 32 = 0
  rw [jumpLoop_succ, if_neg (by rw [one_mul]; exact not_lt.mpr (by exact_mod_cast hJ))]
  decide

theorem popRight_eq_append {l rest : List Nat} {x : Nat} (h : popRight l = some (x, rest)) :
    l = rest ++ [x] := by
  unfold popRight at h
  cases hrev : l.reverse with
  | nil => rw [hrev] at h; exact absurd h (by simp)
  | cons y ys =>
    rw [hrev] at h
    simp only [Option.some.injEq, Prod.mk.injEq] at h
    obtain ⟨hxy, hrest⟩ := h
    have hl : l = ys.reverse ++ [y] := by
      have h2 := congrArg List.reverse hrev
      simpa using h2
    rw [hl, hxy, hrest]

theorem popRight_append (l : List Nat) (p : Nat) : popRight (l ++ [p]) = some (p, l) := by
  simp [popRight]

theorem tcpPoolInv_minted (s : TcpPool) (h : TcpPoolInv s) :
    TcpPoolInv ⟨s.unused, insert s.port s.used, s.port + 1⟩ := by
  obtain ⟨hnd, hdisj, hub, hpb⟩ := h
  refine ⟨hnd, ?_, ?_, ?_⟩
  · intro p hp hmem
    rcases Finset.mem_insert.mp hmem with hpp | hmem2
    · exact absurd hpp (Nat.ne_of_lt (hub p hp))
    · exact hdisj p hp hmem2
  · intro p hp
    exact Nat.lt_succ_of_lt (hub p hp)
  · intro p hp
    rcases Finset.mem_insert.mp hp with hpp | hp2
    · subst hpp
      exact Nat.lt_succ_self _
    · exact Nat.lt_succ_of_lt (hpb p hp2)

theorem tcpPoolInv_acquire (s : TcpPool) (h : TcpPoolInv s) : TcpPoolInv (s.acquire).2 := by
  have hm := tcpPoolInv_minted s h
  obtain ⟨hnd, hdisj, hub, hpb⟩ := h
  simp only [TcpPool.acquire]
  split_ifs with hc
  · exact hm
  · cases hpop : popRight s.unused with
    | none => simpa only [hpop] using hm
    | some pr =>
      obtain ⟨p, rest⟩ := pr
      simp only [hpop]
      have hl : s.unused = rest ++ [p] := popRight_eq_append hpop
      have hrest : rest.Nodup ∧ p ∉ rest := by
        rw [hl] at hnd
        have h1 := List.Nodup.of_append_left hnd
        have h2 := List.disjoint_of_nodup_append hnd
        exact ⟨h1, fun hp => h2 hp (by simp)⟩
      have hpmem : p ∈ s.unused := by rw [hl]; simp
      have hrmem : ∀ q ∈ rest, q ∈ s.unused := by
        intro q hq; rw [hl]; exact List.mem_append_left _ hq
      refine ⟨hrest.1, ?_, ?_, ?_⟩
      · intro q hq hmem
        rcases Finset.mem_insert.mp hmem with hqp | hmem2
        · exact hrest.2 (hqp ▸ hq)
        · exact hdisj q (hrmem q hq) hmem2
      · intro q hq
        exact hub q (hrmem q hq)
      · intro q hq
        rcases Finset.mem_insert.mp hq with hqp | hq2
        · exact hqp ▸ hub p hpmem
        · exact hpb q hq2

theorem tcpPoolInv_release (s : TcpPool) (p : Nat) (h : TcpPoolInv s) (hp : p ∈ s.used) :
    TcpPoolInv (s.release p) := by
  obtain ⟨hnd, hdisj, hub, hpb⟩ := h
  have hpnot : p ∉ s.unused := fun hmem => hdisj p hmem hp
  simp only [TcpPool.release]
  refine ⟨?_, ?_, ?_, ?_⟩
  · rw [List.nodup_append]
    refine ⟨hnd, List.nodup_singleton p, ?_⟩
    intro a ha hap
    have haq : a = p := by simpa using hap
    exact hpnot (haq ▸ ha)
  · intro q hq
    rcases List.mem_append.mp hq with hq1 | hq2
    · exact fun hmem => hdisj q hq1 (Finset.mem_of_mem_erase hmem)
    · have hqp : q = p := by simpa using hq2
      exact hqp ▸ Finset.not_mem_erase p s.used
  · intro q hq
    rcases List.mem_append.mp hq with hq1 | hq2
    · exact hub q hq1
    · have hqp : q = p := by simpa using hq2
      exact hqp ▸ hpb p hp
  · intro q hq
    exact hpb q (Finset.mem_of_mem_erase hq)

theorem tcpPoolInv_run :
    ∀ (ops : List PortOp) (s : TcpPool), TcpPoolInv s →
      TcpPool.validOps s ops = true → TcpPoolInv (TcpPool.run s ops) := by
  intro ops
  induction ops with
  | nil => intro s h _; simpa [TcpPool.run] using h
  | cons op rest ih =>
    intro s h hv
    cases op with
    | acq =>
      rw [TcpPool.validOps] at hv
      exact ih ((s.step .acq)) (tcpPoolInv_acquire s h) hv
    | rel p =>
      rw [TcpPool.validOps] at hv
      rw [Bool.and_eq_true, decide_eq_true_eq] at hv
      exact ih ((s.step (.rel p))) (tcpPoolInv_release s p h hv.1) hv.2

theorem tcpPoolInv_init : TcpPoolInv TcpPool.init := by
  refine ⟨by simp [TcpPool.init], ?_, ?_, ?_⟩ <;> simp [TcpPool.init]

theorem dbQueue_cap_step (s : DbPoolQueue) (op : DbOp) (h : s.unused.length ≤ 10) :
    (s.step op).unused.length ≤ 10 := by
  cases op with
  | co =>
    simp only [DbPoolQueue.step, DbPoolQueue.checkout]
    cases hpop : popRight s.unused with
    | none => simpa using h
    | some pr =>
      obtain ⟨d, rest⟩ := pr
      simp only [hpop]
      have hl : s.unused = rest ++ [d] := popRight_eq_append hpop
      have : s.unused.length = rest.length + 1 := by rw [hl]; simp
      omega
  | rel d =>
    simp only [DbPoolQueue.step, DbPoolQueue.release]
    split_ifs with h1 h2
    · simpa using h
    · simp only [List.length_append, List.length_singleton]
      omega
    · simpa using h

theorem dbQueue_cap_run :
    ∀ (ops : List DbOp) (s : DbPoolQueue), s.unused.length ≤ 10 →
      (DbPoolQueue.run s ops).unused.length ≤ 10 := by
  intro ops
  induction ops with
  | nil => intro s h; simpa [DbPoolQueue.run] using h
  | cons op rest ih =>
    intro s h
    exact ih (s.step op) (dbQueue_cap_step s op h)

/-! ## Claims -/

set_option maxRecDepth 100000

/-- Claim C1 (code bug): the claimed length-framing round trip
decode(encode(x)) = x fails for every x below 255 — decode_length reads the
first byte, and when it is not the 0xFF marker it discards it and returns
the constant 255: encoding 42 yields one byte and decoding it back yields
255, not 42. -/
theorem C1_length_framing_failing_input :
    decode_length (encode_length 42) = some (255, 1) ∧
    decode_length (encode_length 42) ≠ some (42, 1) := by
  decide

/-- Claim C2 (confirmed): when every underlying engine call raises a
transient error, each operation of the retry family (replace, drop,
commit, get_uuid, get_doccount, get_document) makes exactly 5 engine
calls in total and then raises the fatal XapianError. -/
theorem C2_retry_exhaustion (eng : Nat → EngineBeh)
    (h : ∀ i, eng i = EngineBeh.transient) :
    ((Database.replace eng eng false 0 0).1 = Except.error XErr.xapianError ∧
      (Database.replace eng eng false 0 0).2.count Ev.call = 5) ∧
    ((Database.drop eng eng false 0 0).1 = Except.error XErr.xapianError ∧
      (Database.drop eng eng false 0 0).2.count Ev.call = 5) ∧
    ((Database.commit eng 0 0).1 = Except.error XErr.xapianError ∧
      (Database.commit eng 0 0).2.count Ev.call = 5) ∧
    ((Database.get_uuid eng 0 0).1 = Except.error XErr.xapianError ∧
      (Database.get_uuid eng 0 0).2.count Ev.call = 5) ∧
    ((Database.get_doccount eng 0 0).1 = Except.error XErr.xapianError ∧
      (Database.get_doccount eng 0 0).2.count Ev.call = 5) ∧
    ((Database.get_document eng 7 0 0).1 = Except.error XErr.xapianError ∧
      (Database.get_document eng 7 0 0).2.count Ev.call = 5) := by
  have he : eng = fun _ => EngineBeh.transient := funext h
  subst he
  decide

/-- Witness for C2 at the concrete always-transient engine. -/
theorem C2_retry_exhaustion_witness :
    ((Database.replace (fun _ => EngineBeh.transient) (fun _ => EngineBeh.transient)
        false 0 0).1 = Except.error XErr.xapianError ∧
      (Database.replace (fun _ => EngineBeh.transient) (fun _ => EngineBeh.transient)
        false 0 0).2.count Ev.call = 5) ∧
    ((Database.drop (fun _ => EngineBeh.transient) (fun _ => EngineBeh.transient)
        false 0 0).1 = Except.error XErr.xapianError ∧
      (Database.drop (fun _ => EngineBeh.transient) (fun _ => EngineBeh.transient)
        false 0 0).2.count Ev.call = 5) ∧
    ((Database.commit (fun _ => EngineBeh.transient) 0 0).1 =
        Except.error XErr.xapianError ∧
      (Database.commit (fun _ => EngineBeh.transient) 0 0).2.count Ev.call = 5) ∧
    ((Database.get_uuid (fun _ => EngineBeh.transient) 0 0).1 =
        Except.error XErr.xapianError ∧
      (Database.get_uuid (fun _ => EngineBeh.transient) 0 0).2.count Ev.call = 5) ∧
    ((Database.get_doccount (fun _ => EngineBeh.transient) 0 0).1 =
        Except.error XErr.xapianError ∧
      (Database.get_doccount (fun _ => EngineBeh.transient) 0 0).2.count Ev.call = 5) ∧
    ((Database.get_document (fun _ => EngineBeh.transient) 7 0 0).1 =
        Except.error XErr.xapianError ∧
      (Database.get_document (fun _ => EngineBeh.transient) 7 0 0).2.count Ev.call = 5) :=
  C2_retry_exhaustion (fun _ => EngineBeh.transient) (fun _ => rfl)

/-- Counterexample for claim C3: with an always-transient engine, the
event right after the 2nd failed engine call of Database.replace (trace
index 3, after call, reopen, call) is a soft reopen — not the sleep and
not the forced reopen that the claim asserts happen from the 2nd failed
try onward. -/
theorem C3_backoff_counterexample :
    (Database.replace (fun _ => EngineBeh.transient) (fun _ => EngineBeh.transient)
        false 0 0).2.get? 3 = some (Ev.reopen false) ∧
    (Database.replace (fun _ => EngineBeh.transient) (fun _ => EngineBeh.transient)
        false 0 0).2.get? 3 ≠ some Ev.sleep ∧
    (Database.replace (fun _ => EngineBeh.transient) (fun _ => EngineBeh.transient)
        false 0 0).2.get? 3 ≠ some (Ev.reopen true) := by
  decide

/-- Claim C3 (as amended): with an always-transient engine the full event
trace of replace and of commit is call, soft reopen, call, soft reopen,
call, sleep, forced reopen, call, sleep, forced reopen, call — the 100ms
sleep happens only after the 3rd and 4th failed tries (the source sleeps
when `_t > 1`, and `_t` counts one behind the number of failures), the
reopen is soft after the 1st and 2nd failures and forced after the 3rd
and 4th, and the 5th failure raises the fatal error with no further
sleep or reopen. -/
theorem C3_backoff_schedule_amended (eng : Nat → EngineBeh)
    (h : ∀ i, eng i = EngineBeh.transient) :
    (Database.replace eng eng false 0 0).2 =
      [Ev.call, Ev.reopen false, Ev.call, Ev.reopen false, Ev.call, Ev.sleep,
        Ev.reopen true, Ev.call, Ev.sleep, Ev.reopen true, Ev.call] ∧
    (Database.commit eng 0 0).2 =
      [Ev.call, Ev.reopen false, Ev.call, Ev.reopen false, Ev.call, Ev.sleep,
        Ev.reopen true, Ev.call, Ev.sleep, Ev.reopen true, Ev.call] := by
  have he : eng = fun _ => EngineBeh.transient := funext h
  subst he
  decide

/-- Witness for the amended C3 at the concrete always-transient engine. -/
theorem C3_backoff_schedule_amended_witness :
    (Database.replace (fun _ => EngineBeh.transient) (fun _ => EngineBeh.transient)
        false 0 0).2 =
      [Ev.call, Ev.reopen false, Ev.call, Ev.reopen false, Ev.call, Ev.sleep,
        Ev.reopen true, Ev.call, Ev.sleep, Ev.reopen true, Ev.call] ∧
    (Database.commit (fun _ => EngineBeh.transient) 0 0).2 =
      [Ev.call, Ev.reopen false, Ev.call, Ev.reopen false, Ev.call, Ev.sleep,
        Ev.reopen true, Ev.call, Ev.sleep, Ev.reopen true, Ev.call] :=
  C3_backoff_schedule_amended (fun _ => EngineBeh.transient) (fun _ => rfl)

/-- Claim C4 (confirmed): the jump-consistent-hash reference vectors
shard(1,1) = 0, shard(256,1024) = 520, shard(42,57) = 43; shard(k,1) = 0
for every key; and shard(k,n) = 0 = shard(k,1) for every key and every
negative bucket count. -/
theorem C4_sharding_reference_vectors :
    consistent_hash 1 1 = 0 ∧
    consistent_hash 256 1024 = 520 ∧
    consistent_hash 42 57 = 43 ∧
    (∀ k : Int, consistent_hash k 1 = 0) ∧
    (∀ k n : Int, n < 0 → consistent_hash k n = 0) :=
  ⟨by decide, by decide, by decide, consistent_hash_one, consistent_hash_of_neg⟩

/-- Witness for C4 discharging the negative-bucket hypothesis at a
concrete input. -/
theorem C4_sharding_reference_vectors_witness : consistent_hash 999 (-7) = 0 :=
  C4_sharding_reference_vectors.2.2.2.2 999 (-7) (by decide)

/-- Counterexample for claim C5: drive the pool to 100 held ports by 102
acquires and 2 releases; the free queue is then [8900, 8901] oldest
first, and the next acquire returns 8901 — the most recently released
port — not the oldest (8900) as the claim asserts (deque.pop() pops the
right end, where release appends). -/
theorem C5_fifo_counterexample :
    (((TcpPool.acquireN 102 TcpPool.init).release 8900).release 8901).unused =
      [8900, 8901] ∧
    MIN_TCP_SERVER_PORTS ≤
      (((TcpPool.acquireN 102 TcpPool.init).release 8900).release 8901).used.card ∧
    ((((TcpPool.acquireN 102 TcpPool.init).release 8900).release 8901).acquire).1 = 8901 ∧
    ((((TcpPool.acquireN 102 TcpPool.init).release 8900).release 8901).acquire).1 ≠ 8900 := by
  decide

/-- Claim C5 (as amended): once at least MIN_TCP_SERVER_PORTS (100) ports
are held and the free queue is nonempty, acquire returns the most
recently released port — the right end of the free deque (LIFO), not the
oldest one. -/
theorem C5_lifo_reuse_amended (s : TcpPool) (l : List Nat) (p : Nat)
    (hcard : MIN_TCP_SERVER_PORTS ≤ s.used.card) (hu : s.unused = l ++ [p]) :
    (s.acquire).1 = p := by
  simp only [TcpPool.acquire, if_neg (by omega : ¬s.used.card < MIN_TCP_SERVER_PORTS),
    hu, popRight_append]

/-- Witness for the amended C5 at a concrete pool state. -/
theorem C5_lifo_reuse_amended_witness :
    (TcpPool.acquire ⟨[4, 7], Finset.range 100, 9000⟩).1 = 7 :=
  C5_lifo_reuse_amended ⟨[4, 7], Finset.range 100, 9000⟩ [4] 7
    (by simp [MIN_TCP_SERVER_PORTS]) rfl

/-- Counterexample for claim C6: the sequence of two release(5) calls —
TcpPool.release discards unconditionally and appends unconditionally —
leaves the port 5 twice in the free queue, so over arbitrary call
sequences the queue is not duplicate-free. -/
theorem C6_invariant_counterexample :
    (TcpPool.run TcpPool.init [PortOp.rel 5, PortOp.rel 5]).unused.count 5 = 2 ∧
    ¬(TcpPool.run TcpPool.init [PortOp.rel 5, PortOp.rel 5]).unused.Nodup := by
  decide

/-- Claim C6 (as amended): for every sequence of acquire and release
calls in which each release passes a currently held port, the free queue
of the port allocator holds no duplicates and no port is simultaneously
in the free queue and in the held set. -/
theorem C6_portlease_invariant_amended (ops : List PortOp)
    (h : TcpPool.validOps TcpPool.init ops = true) :
    (TcpPool.run TcpPool.init ops).unused.Nodup ∧
    ∀ p : Nat, ¬(p ∈ (TcpPool.run TcpPool.init ops).unused ∧
      p ∈ (TcpPool.run TcpPool.init ops).used) := by
  have hinv := tcpPoolInv_run ops TcpPool.init tcpPoolInv_init h
  exact ⟨hinv.1, fun p hp => hinv.2.1 p hp.1 hp.2⟩

/-- Witness for the amended C6 on a concrete disciplined call sequence. -/
theorem C6_portlease_invariant_amended_witness :
    (TcpPool.run TcpPool.init [PortOp.acq, PortOp.rel 8900, PortOp.acq]).unused.Nodup ∧
    ∀ p : Nat,
      ¬(p ∈ (TcpPool.run TcpPool.init [PortOp.acq, PortOp.rel 8900, PortOp.acq]).unused ∧
        p ∈ (TcpPool.run TcpPool.init [PortOp.acq, PortOp.rel 8900, PortOp.acq]).used) :=
  C6_portlease_invariant_amended [PortOp.acq, PortOp.rel 8900, PortOp.acq] (by decide)

/-- Counterexample for claim C7: when the engine raises
InvalidArgumentError, Database.replace does not propagate it — the
except clause logs it, and the subsequent `return docid` raises
UnboundLocalError because docid was never assigned. -/
theorem C7_invalid_propagation_counterexample :
    Database.replace (fun _ => EngineBeh.invalid) (fun _ => EngineBeh.invalid) false 0 0 =
      (Except.error XErr.unboundLocal, [Ev.call]) ∧
    (Database.replace (fun _ => EngineBeh.invalid) (fun _ => EngineBeh.invalid)
        false 0 0).1 ≠ Except.error XErr.invalidArg := by
  decide

/-- Claim C7 (as amended): when the first engine call of Database.replace
(with commit=False) raises InvalidArgumentError, no retry, sleep or
reopen occurs, but the error is swallowed (logged) rather than
propagated, and the call instead fails with UnboundLocalError from
returning the never-assigned docid. -/
theorem C7_invalid_swallowed_amended (eng cEng : Nat → EngineBeh)
    (h : eng 0 = EngineBeh.invalid) :
    Database.replace eng cEng false 0 0 = (Except.error XErr.unboundLocal, [Ev.call]) := by
  show replaceAux eng cEng false (4 + 1) 0 0 = (Except.error XErr.unboundLocal, [Ev.call])
  rw [replaceAux, h]
  rfl

/-- Witness for the amended C7 at a concrete engine. -/
theorem C7_invalid_swallowed_amended_witness :
    Database.replace (fun _ => EngineBeh.invalid) (fun _ => EngineBeh.ok) false 0 0 =
      (Except.error XErr.unboundLocal, [Ev.call]) :=
  C7_invalid_swallowed_amended (fun _ => EngineBeh.invalid) (fun _ => EngineBeh.ok) rfl

/-- Claim C8 (confirmed): the idle queue of a connection-pool key never
holds more than 10 entries under any sequence of checkouts and releases,
and checking out 11 handles and then releasing all 11 leaves exactly 10
idle and closes exactly one (the 11th released). -/
theorem C8_idle_cap :
    (∀ ops : List DbOp, (DbPoolQueue.run DbPoolQueue.init ops).unused.length ≤ 10) ∧
    (DbPoolQueue.run DbPoolQueue.init
      (List.replicate 11 DbOp.co ++ (List.range 11).map DbOp.rel)).unused.length = 10 ∧
    (DbPoolQueue.run DbPoolQueue.init
      (List.replicate 11 DbOp.co ++ (List.range 11).map DbOp.rel)).closed = [10] := by
  refine ⟨fun ops => dbQueue_cap_run ops DbPoolQueue.init (by simp [DbPoolQueue.init]),
    by decide, by decide⟩

/-- Claim C9 (confirmed): given that the connection's counter can only
have advanced since the command captured it, the staleness check passes
(returns the falsy value, so the command continues) exactly when the
counter still equals the captured value, raises DeadException exactly
when the counter has advanced past it, and in that case the threaded
command wrapper reports the command as cancelled — never as an executed
or error reply, which only arise from the body's own outcome when the
check passed. -/
theorem C9_cancellation (captured now : Nat) (h : captured ≤ now) :
    ((AliveCommand.check captured now = Except.ok false) ↔ captured = now) ∧
    ((AliveCommand.check captured now = Except.error DeadEx.dead) ↔ captured < now) ∧
    (∀ body : FuncOutcome, captured < now →
      runThreadedCommand captured now body = CmdReport.cancelled) ∧
    (∀ body : FuncOutcome, captured = now →
      runThreadedCommand captured now body = commandReport body) ∧
    (∀ o : FuncOutcome, commandReport o = CmdReport.cancelled → o = FuncOutcome.dead) ∧
    CmdReport.cancelled ≠ CmdReport.executed ∧
    CmdReport.cancelled ≠ CmdReport.errorReport := by
  refine ⟨?_, ?_, ?_, ?_, ?_, by simp, by simp⟩
  · by_cases hc : captured = now <;> simp [AliveCommand.check, hc]
  · by_cases hc : captured = now <;> simp [AliveCommand.check, hc] <;> omega
  · intro body hlt
    have hc : captured ≠ now := by omega
    simp [runThreadedCommand, AliveCommand.check, hc, commandReport]
  · intro body hc
    simp [runThreadedCommand, AliveCommand.check, hc]
  · intro o ho
    cases o with
    | ok => exact absurd ho (by decide)
    | ioError => exact absurd ho (by decide)
    | dead => rfl

/-- Witness for C9 with the counter advanced from 1 to 2. -/
theorem C9_cancellation_witness :
    ((AliveCommand.check 1 2 = Except.ok false) ↔ (1 : Nat) = 2) ∧
    ((AliveCommand.check 1 2 = Except.error DeadEx.dead) ↔ (1 : Nat) < 2) ∧
    (∀ body : FuncOutcome, (1 : Nat) < 2 →
      runThreadedCommand 1 2 body = CmdReport.cancelled) ∧
    (∀ body : FuncOutcome, (1 : Nat) = 2 →
      runThreadedCommand 1 2 body = commandReport body) ∧
    (∀ o : FuncOutcome, commandReport o = CmdReport.cancelled → o = FuncOutcome.dead) ∧
    CmdReport.cancelled ≠ CmdReport.executed ∧
    CmdReport.cancelled ≠ CmdReport.errorReport :=
  C9_cancellation 1 2 (by decide)

/-- Claim C10 (confirmed): for every integer key, consistent_hash with a
bucket count of 0 skips both the short circuit and the normalization,
never enters the loop, and returns the initial b = -1 masked to 32 bits,
4294967295 — outside every valid bucket range. -/
theorem C10_zero_buckets : ∀ k : Int, consistent_hash k 0 = 4294967295 := by
  intro k
  simp only [consistent_hash, if_neg (by norm_num : (0 : Int) ≠ 1),
    if_neg (by norm_num : ¬(0 : Int) < 0)]
  show jumpLoop (1 + 1) k 0 (-1) 0 % 2 ^ 32 = 4294967295
  rw [jumpLoop_succ, if_neg (by norm_num : ¬((0 : Nat) : Int) < 0 * 2 ^ 52)]
  decide
